import Mathlib

set_option maxRecDepth 40000

/-!
Verification of the `chng` changelog generator (src/chng.py) against its
natural-language specification.  The program is shallowly embedded: the
config dictionary is a finite string map, the filesystem and the network
are explicit parameters, and every console print, completion-API call and
file write is recorded in an outcome record.
-/

namespace Chng

/-- A JSON-style flat object with string keys and string values, as the
program stores in `~/.apikey` (Python dict, insertion ordered). -/
abbrev Dict := List (String × String)

/-- Python `d.get(k)` returning the first binding, `none` when absent. -/
def dLookup (d : Dict) (k : String) : Option String :=
  match d with
  | [] => none
  | (k', v) :: rest => if k' = k then some v else dLookup rest k

/-- Python `d.get(k, default)`. -/
def dGet (d : Dict) (k dflt : String) : String :=
  (dLookup d k).getD dflt

/-- The four-field configuration record of the spec's data model:
`{url, port, key, model}`. -/
structure Config where
  url : String
  port : String
  key : String
  model : String
deriving DecidableEq

/-- Reading a `Dict` the way the code does at every use site:
`config.get('url','')`, `config.get('port','')`, `config.get('key','')`,
`config.get('model','gpt-3.5-turbo')`. -/
def configOfDict (d : Dict) : Config :=
  { url := dGet d ("url") ("")
  , port := dGet d ("port") ("")
  , key := dGet d ("key") ("")
  , model := dGet d ("model") ("gpt-3.5-turbo") }

/-! ## JSON subset: `json.dump(config, indent=2)` and `json.load`
restricted to flat string-to-string objects, which is the shape the
program ever writes.  Characters are handled at the `List Char` level. -/

/-- `json.dump` escaping of one character, restricted to the printable
ASCII range (there only `"` and `\` are escaped). -/
def escChar (c : Char) : List Char :=
  if c = '"' ∨ c = '\\' then ['\\', c] else [c]

/-- `json.dump` escaping of a string body. -/
def escList : List Char → List Char
  | [] => []
  | c :: cs => escChar c ++ escList cs

/-- JSON whitespace. -/
def jws (c : Char) : Bool :=
  c = ' ' || c = '\t' || c = '\n' || c = '\r'

/-- Skip JSON whitespace. -/
def skipWs (l : List Char) : List Char :=
  l.dropWhile jws

/-- Parse a JSON string body (the opening quote already consumed) up to
the closing quote; understands the `\"` and `\\` escapes produced by the
encoder. -/
def parseStringBody : List Char → Option (List Char × List Char)
  | [] => none
  | c :: rest =>
    if c = '"' then some ([], rest)
    else if c = '\\' then
      match rest with
      | [] => none
      | e :: rest2 =>
        if e = '"' ∨ e = '\\' then
          (parseStringBody rest2).map (fun p => (e :: p.1, p.2))
        else none
    else (parseStringBody rest).map (fun p => (c :: p.1, p.2))

/-- Parse one `"key": "value"` member. -/
def parseMember (l : List Char) : Option ((List Char × List Char) × List Char) :=
  match skipWs l with
  | [] => none
  | c :: rest =>
    if c = '"' then
      match parseStringBody rest with
      | none => none
      | some (key, rest2) =>
        match skipWs rest2 with
        | [] => none
        | c2 :: rest3 =>
          if c2 = ':' then
            match skipWs rest3 with
            | [] => none
            | c3 :: rest4 =>
              if c3 = '"' then
                match parseStringBody rest4 with
                | none => none
                | some (val, rest5) => some ((key, val), rest5)
              else none
          else none
    else none

/-- Parse a comma-separated member list up to the closing brace; `fuel`
bounds the number of members. -/
def parseMembers : Nat → List Char → Option (List (List Char × List Char) × List Char)
  | 0, _ => none
  | n + 1, l =>
    match parseMember l with
    | none => none
    | some (kv, rest) =>
      match skipWs rest with
      | [] => none
      | c :: rest2 =>
        if c = ',' then (parseMembers n rest2).map (fun p => (kv :: p.1, p.2))
        else if c = '\x7d' then some ([kv], rest2)
        else none

/-- Parse a flat string-valued JSON object. -/
def parseObj (l : List Char) : Option (List (List Char × List Char) × List Char) :=
  match skipWs l with
  | [] => none
  | c :: rest =>
    if c = '\x7b' then
      match skipWs rest with
      | [] => none
      | c2 :: rest2 =>
        if c2 = '\x7d' then some ([], rest2)
        else parseMembers (rest.length + 1) rest
    else none

/-- `json.load` on the file content, restricted to flat string objects;
`none` models the parse error the Python code catches. -/
def jsonDecode (raw : String) : Option Dict :=
  match parseObj raw.data with
  | none => none
  | some (kvs, rest) =>
    if skipWs rest = [] then
      some (kvs.map (fun kv => (String.mk kv.1, String.mk kv.2)))
    else none

/-- One `"key": "value"` member as `json.dump(..., indent=2)` lays it out
(newline, two spaces of indentation). -/
def memberL (key val rest : List Char) : List Char :=
  '\n' :: ' ' :: ' ' :: '"' :: (key ++ '"' :: ':' :: ' ' :: '"' :: (escList val ++ '"' :: rest))

/-- The full `json.dump({'url','port','key','model'}, indent=2)` output. -/
def encodeL (u p k m : List Char) : List Char :=
  '\x7b' ::
    memberL ['u', 'r', 'l'] u
      (',' :: memberL ['p', 'o', 'r', 't'] p
        (',' :: memberL ['k', 'e', 'y'] k
          (',' :: memberL ['m', 'o', 'd', 'e', 'l'] m ['\n', '\x7d'])))

/-- Serialized form of a `Config`, as `save_config` writes it. -/
def encodeConfig (c : Config) : String :=
  String.mk (encodeL c.url.data c.port.data c.key.data c.model.data)

/-- State of the config file on disk, as far as `load_config` can tell. -/
inductive FileState where
  | missing
  | present (raw : String)

/-- `ChngApp.load_config`: missing file gives `{}`; a parse failure is
caught and gives `{}`; otherwise the parsed dict is returned as is
(missing fields are NOT filled in here — defaults are applied at each
`.get` use site, captured by `configOfDict`).  Total by construction:
every error path returns the empty dict rather than raising. -/
def load_config (fs : FileState) : Dict :=
  match fs with
  | .missing => []
  | .present raw => (jsonDecode raw).getD []

/-- `ChngApp.save_config`: writes `json.dump(self.config, f, indent=2)`
to the config path (the `chmod 0600` and write-error reporting are
filesystem effects outside the model). -/
def save_config (c : Config) : FileState :=
  FileState.present (encodeConfig c)

/-! ## Endpoint resolution (`ChngApp.get_api_url`) -/

/-- Python `s.strip()`: drop leading and trailing whitespace. -/
def strip (s : String) : String :=
  String.mk (((s.data.dropWhile Char.isWhitespace).reverse.dropWhile Char.isWhitespace).reverse)

/-- Python `s.rstrip('/')`. -/
def rstripSlash (s : String) : String :=
  String.mk ((s.data.reverse.dropWhile (fun c => c = '/')).reverse)

/-- Python `s.split(sep)` on char lists for a non-empty separator; the
fuel is an upper bound on the recursion depth (one unit per character of
input suffices, since the separator consumes at least one character). -/
def splitOnFuel (sep : List Char) : Nat → List Char → List (List Char)
  | _, [] => [[]]
  | 0, l => [l]
  | n + 1, c :: rest =>
    if sep.isPrefixOf (c :: rest) then
      [] :: splitOnFuel sep n (rest.drop (sep.length - 1))
    else
      match splitOnFuel sep n rest with
      | [] => [[c]]
      | h :: t => (c :: h) :: t

/-- Python `s.split(sep)` (the program never splits on an empty
separator). -/
def splitOnStr (s sep : String) : List String :=
  match sep.data with
  | [] => [s]
  | c :: cs => (splitOnFuel (c :: cs) s.data.length s.data).map String.mk

/-- Python substring test `pat in s` over char lists. -/
def hasSub (pat : List Char) : List Char → Bool
  | [] => pat.isEmpty
  | c :: rest => pat.isPrefixOf (c :: rest) || hasSub pat rest

/-- Python substring test `pat in s`. -/
def strContains (s pat : String) : Bool :=
  hasSub pat.data s.data

/-- Python `s.split(sep, 1)`: the part before the first occurrence of
`sep` and the remainder (remainder empty when `sep` is absent). -/
def splitFirst (s sep : String) : String × String :=
  match splitOnStr s sep with
  | [] => (s, "")
  | [x] => (x, "")
  | x :: xs => (x, String.intercalate sep xs)

/-- `ChngApp.get_api_url`: strips trailing slashes, returns `none`
("no API URL configured") when nothing is left, and injects the separate
`port` into the first path segment when the port is set and `:<port>`
does not already occur in the url. -/
def getApiUrl (cfg : Dict) : Option String :=
  let url := rstripSlash (dGet cfg ("url") (""))
  let port := dGet cfg ("port") ("")
  if url = "" then none
  else if port ≠ "" ∧ strContains url (":" ++ port) = false then
    if strContains url ("://") = true then
      let protocol := (splitFirst url ("://")).1
      let rest := (splitFirst url ("://")).2
      let host := (splitOnStr ((splitOnStr rest ("/")).headD ("")) (":")).headD ("")
      let path :=
        if strContains rest ("/") = true then
          "/" ++ String.intercalate ("/") ((splitOnStr rest ("/")).tail)
        else ""
      some (protocol ++ "://" ++ host ++ ":" ++ port ++ path)
    else some url
  else some url

/-! ## Completion client (`ChngApp.get_client`) -/

/-- The constructed OpenAI client: the `base_url` and `api_key` passed to
`openai.OpenAI(...)`. -/
structure Client where
  baseUrl : String
  apiKey : String
deriving DecidableEq

/-- `ChngApp.get_client`: `none` (after printing the configuration
error, recorded by the caller) when no API URL is configured; otherwise
a client on the resolved URL, with the literal key `"dummy"` substituted
for an empty configured key. -/
def get_client (cfg : Dict) : Option Client :=
  (getApiUrl cfg).map (fun au =>
    { baseUrl := au
    , apiKey := if dGet cfg ("key") ("") = "" then "dummy" else dGet cfg ("key") ("") })

/-! ## Changelog generation (`ChngApp.generate_changelog`) -/

/-- The fixed prompt template of `generate_changelog`, with the diff text
spliced into the code fence. -/
def buildPrompt (diff_content : String) : String :=
  "You are an expert software developer writing a changelog entry.\n\nGiven this git diff, create a concise, well-formatted changelog entry in markdown format.\n\nGuidelines:\n- Use clear, user-facing language\n- Group related changes together\n- Use bullet points for multiple changes\n- Follow conventional changelog format (Added, Changed, Fixed, Removed, etc.)\n\nDiff:\n```\n"
    ++ diff_content ++ "\n```\n\nGenerate a changelog entry:"

/-- Result of one completion request: the first choice's message content,
or the message of the exception the API raised.  The stub stands for the
opaque network service; the prompt is the request payload the code sends
(model, `max_tokens=1000` and `temperature=0.3` ride along unchanged). -/
abbrev Net := String → Except String String

/-- Observable outcome of `generate_changelog`: the returned value
(`none` models Python `None`), the completion requests issued, and the
console messages printed. -/
structure GenOutcome where
  result : Option String
  calls : List String
  msgs : List String
deriving DecidableEq

/-- `ChngApp.generate_changelog`: builds the prompt, bails out (after the
client's error print) when no client is available, otherwise issues one
completion call; any exception is caught, printed and turned into `None`;
on success the content is returned stripped. -/
def generate_changelog (cfg : Dict) (net : Net) (diff_content : String) : GenOutcome :=
  let prompt := buildPrompt diff_content
  match get_client cfg with
  | none =>
    { result := none, calls := []
    , msgs := ["[red]Error: No API URL configured. Run with --setup[/red]"] }
  | some _ =>
    match net prompt with
    | .error e =>
      { result := none, calls := [prompt]
      , msgs := ["[red]Error: " ++ e ++ "[/red]"] }
    | .ok content =>
      { result := some (strip content), calls := [prompt], msgs := [] }

/-! ## File processing (`ChngApp.process_file`) and CLI entry (`main`) -/

/-- What reading the input path yields: Python's `FileNotFoundError`,
any other read exception, or the file's text. -/
inductive ReadResult where
  | notFound
  | readError (msg : String)
  | ok (raw : String)

/-- Python `Path(p).stem`: final component minus its last suffix
(a leading or trailing dot is not a suffix separator). -/
def pathStem (p : String) : String :=
  let nm := (splitOnStr p ("/")).getLastD ("")
  let l := nm.data
  match l.reverse.findIdx? (fun c => c = '.') with
  | none => nm
  | some j =>
    let i := l.length - 1 - j
    if 0 < i ∧ i < l.length - 1 then String.mk (l.take i) else nm

/-- The directory part of `Path(p).parent / name`: everything up to the
last slash (empty for a bare filename, matching `Path('.') / name`). -/
def parentDir (p : String) : String :=
  let parts := splitOnStr p ("/")
  if parts.length ≤ 1 then "" else String.intercalate ("/") parts.dropLast ++ "/"

/-- `Path(filepath).parent / f"changelog-(stem).md"`. -/
def outputPath (filepath : String) : String :=
  parentDir filepath ++ "changelog-" ++ pathStem filepath ++ ".md"

/-- The `"="*60` separator line printed around the generated changelog. -/
def sep60 : String :=
  String.mk (List.replicate 60 '=')

/-- Observable outcome of `process_file`: console messages in order,
completion requests issued, and the files written (path, content). -/
structure RunOutcome where
  msgs : List String
  calls : List String
  writes : List (String × String)
deriving DecidableEq

/-- `ChngApp.process_file`: reads and strips the file (read errors are
caught and reported), rejects empty content, generates the changelog and
— only when the result is a non-empty string (Python truthiness of
`if changelog:`) — writes `# Changelog\n\n<text>` beside the input file.
A failed write would be caught and reported; the write-success path is
modelled (the attempted write and its content are what is recorded). -/
def process_file (cfg : Dict) (net : Net) (fileRead : ReadResult) (filepath : String) : RunOutcome :=
  match fileRead with
  | .notFound =>
    { msgs := ["[red]Error: File '" ++ filepath ++ "' not found[/red]"]
    , calls := [], writes := [] }
  | .readError e =>
    { msgs := ["[red]Error reading file: " ++ e ++ "[/red]"]
    , calls := [], writes := [] }
  | .ok raw =>
    let content := strip raw
    if content = "" then
      { msgs := ["[red]Error: File is empty[/red]"], calls := [], writes := [] }
    else
      let pm := "[blue]Processing " ++ filepath ++ "...[/blue]"
      let g := generate_changelog cfg net content
      match g.result with
      | some changelog =>
        if changelog ≠ "" then
          { msgs := pm :: g.msgs ++
              ["\n[bold green]Generated Changelog:[/bold green]", sep60, changelog, sep60,
               "\n[green]✓ Saved to " ++ outputPath filepath ++ "[/green]"]
          , calls := g.calls
          , writes := [(outputPath filepath, "# Changelog\n\n" ++ changelog)] }
        else
          { msgs := pm :: g.msgs, calls := g.calls, writes := [] }
      | none =>
        { msgs := pm :: g.msgs, calls := g.calls, writes := [] }

/-- `main`: `argv` is the full `sys.argv` (program name first).  With no
argument it prints usage and exits 1 via `sys.exit(1)`; `--setup` and the
unconfigured-URL path run the interactive setup (an interactive flow with
no generation activity, modelled as its console note) and fall off the end
of `main`, exiting 0; otherwise `process_file` runs and `main` falls off
the end, exiting 0 — `process_file` returns instead of exiting on its
error paths.  Result: (exit code, observable outcome). -/
def mainRun (argv : List String) (cfg : Dict) (net : Net) (fileRead : ReadResult) : Nat × RunOutcome :=
  if argv.length < 2 then
    (1, { msgs := ["Usage: chng <diff_file> or chng --setup"], calls := [], writes := [] })
  else if argv.getD 1 "" = "--setup" then
    (0, { msgs := [], calls := [], writes := [] })
  else if dGet cfg ("url") ("") = "" then
    (0, { msgs := ["[yellow]No API configuration found. Running setup...[/yellow]\n",
                   "\n[blue]Now you can run: chng <diff_file>[/blue]"]
        , calls := [], writes := [] })
  else
    (0, process_file cfg net fileRead (argv.getD 1 ""))

/-- Printable-ASCII check on a string's characters, the domain on which
the embedded `json.dump` escaping (only `"` and `\`) is exact. -/
def printableStr (s : String) : Bool :=
  s.data.all (fun c => 0x20 ≤ c.toNat && c.toNat ≤ 0x7E)

/-! ## Theorems -/

/-! ### Round-trip lemmas for the config serialization -/

/-- Dropping a whitespace character. -/
theorem skipWs_ws (c : Char) (l : List Char) (h : jws c = true) :
    skipWs (c :: l) = skipWs l := by
  simp [skipWs, List.dropWhile_cons, h]

/-- Stopping at a non-whitespace character. -/
theorem skipWs_nws (c : Char) (l : List Char) (h : jws c = false) :
    skipWs (c :: l) = c :: l := by
  simp [skipWs, List.dropWhile_cons, h]

/-- A JSON string body parses back to exactly the text the encoder
escaped, leaving the input after the closing quote untouched. -/
theorem parseStringBody_esc (s rest : List Char) :
    parseStringBody (escList s ++ '"' :: rest) = some (s, rest) := by
  induction s generalizing rest with
  | nil =>
    show parseStringBody ('"' :: rest) = some ([], rest)
    rw [parseStringBody.eq_def]
    simp
  | cons c s' ih =>
    by_cases hc : c = '"' ∨ c = '\\'
    · have h1 : escList (c :: s') = '\\' :: c :: escList s' := by
        simp [escList, escChar, hc]
      rw [h1]
      simp only [List.cons_append]
      rw [parseStringBody.eq_def]
      simp [hc, ih]
    · have h1 : escList (c :: s') = c :: escList s' := by
        simp [escList, escChar, hc]
      have hq : ¬c = '"' := fun h => hc (Or.inl h)
      have hb : ¬c = '\\' := fun h => hc (Or.inr h)
      rw [h1]
      simp only [List.cons_append]
      rw [parseStringBody.eq_def]
      simp [hq, hb, ih]

/-- One encoded `"key": "value"` member parses back to its key/value
pair (for a key the escaper leaves unchanged). -/
theorem parseMember_memberL (key val rest : List Char) (hk : escList key = key) :
    parseMember (memberL key val rest) = some ((key, val), rest) := by
  have e1 : skipWs (memberL key val rest) =
      '"' :: (key ++ '"' :: ':' :: ' ' :: '"' :: (escList val ++ '"' :: rest)) := by
    rw [memberL, skipWs_ws _ _ (by decide), skipWs_ws _ _ (by decide),
      skipWs_ws _ _ (by decide), skipWs_nws _ _ (by decide)]
  have e2 : parseStringBody (key ++ '"' :: ':' :: ' ' :: '"' :: (escList val ++ '"' :: rest)) =
      some (key, ':' :: ' ' :: '"' :: (escList val ++ '"' :: rest)) := by
    conv_lhs => rw [← hk]
    exact parseStringBody_esc _ _
  have e3 : skipWs (':' :: ' ' :: '"' :: (escList val ++ '"' :: rest)) =
      ':' :: ' ' :: '"' :: (escList val ++ '"' :: rest) := skipWs_nws _ _ (by decide)
  have e4 : skipWs (' ' :: '"' :: (escList val ++ '"' :: rest)) =
      '"' :: (escList val ++ '"' :: rest) := by
    rw [skipWs_ws _ _ (by decide), skipWs_nws _ _ (by decide)]
  rw [parseMember, e1]
  simp [e2, e3, e4, parseStringBody_esc]

/-- Taking one comma-separated member off the member list. -/
theorem parseMembers_step (n : Nat) (kv : List Char × List Char) (l rest rest2 : List Char)
    (h1 : parseMember l = some (kv, rest)) (h2 : skipWs rest = ',' :: rest2) :
    parseMembers (n + 1) l = (parseMembers n rest2).map (fun q => (kv :: q.1, q.2)) := by
  rw [parseMembers, h1]
  dsimp only
  rw [h2]
  simp

/-- The final member, followed by the closing brace. -/
theorem parseMembers_last (n : Nat) (kv : List Char × List Char) (l rest rest2 : List Char)
    (h1 : parseMember l = some (kv, rest)) (h2 : skipWs rest = '\x7d' :: rest2) :
    parseMembers (n + 1) l = some ([kv], rest2) := by
  rw [parseMembers, h1]
  dsimp only
  rw [h2]
  simp

/-- A successful member-list parse is stable under extra fuel. -/
theorem parseMembers_mono (n : Nat) :
    ∀ (m : Nat) (l : List Char) (r : List (List Char × List Char) × List Char),
      n ≤ m → parseMembers n l = some r → parseMembers m l = some r := by
  induction n with
  | zero => intro m l r _ h; simp [parseMembers] at h
  | succ n ih =>
    intro m l r hnm h
    obtain ⟨m', rfl⟩ : ∃ m', m = m' + 1 := ⟨m - 1, by omega⟩
    rw [parseMembers] at h ⊢
    cases h1 : parseMember l with
    | none => rw [h1] at h; simp at h
    | some pr =>
      obtain ⟨kv, rest⟩ := pr
      rw [h1] at h
      dsimp only at h ⊢
      cases h2 : skipWs rest with
      | nil => rw [h2] at h; simp at h
      | cons c rest2 =>
        rw [h2] at h
        dsimp only at h ⊢
        by_cases hc : c = ','
        · rw [if_pos hc] at h ⊢
          cases hq : parseMembers n rest2 with
          | none => rw [hq] at h; simp at h
          | some q =>
            rw [hq] at h
            rw [ih m' rest2 q (by omega) hq]
            exact h
        · rw [if_neg hc] at h ⊢
          exact h

/-- The four encoded members of a config parse back exactly, consuming
the whole input. -/
theorem parseMembers_enc (u p k m : List Char) :
    parseMembers 4
      (memberL ['u', 'r', 'l'] u
        (',' :: memberL ['p', 'o', 'r', 't'] p
          (',' :: memberL ['k', 'e', 'y'] k
            (',' :: memberL ['m', 'o', 'd', 'e', 'l'] m ['\n', '\x7d'])))) =
      some ([(['u', 'r', 'l'], u), (['p', 'o', 'r', 't'], p),
             (['k', 'e', 'y'], k), (['m', 'o', 'd', 'e', 'l'], m)], []) := by
  rw [show (4 : Nat) = 3 + 1 from rfl,
    parseMembers_step 3 _ _ _ _ (parseMember_memberL _ u _ (by decide))
      (skipWs_nws _ _ (by decide))]
  rw [show (3 : Nat) = 2 + 1 from rfl,
    parseMembers_step 2 _ _ _ _ (parseMember_memberL _ p _ (by decide))
      (skipWs_nws _ _ (by decide))]
  rw [show (2 : Nat) = 1 + 1 from rfl,
    parseMembers_step 1 _ _ _ _ (parseMember_memberL _ k _ (by decide))
      (skipWs_nws _ _ (by decide))]
  rw [show (1 : Nat) = 0 + 1 from rfl,
    parseMembers_last 0 _ _ _ [] (parseMember_memberL _ m _ (by decide)) (by decide)]
  simp

/-- Parsing the whole encoded object yields the four members with no
trailing input. -/
theorem parseObj_enc (u p k m : List Char) :
    parseObj (encodeL u p k m) =
      some ([(['u', 'r', 'l'], u), (['p', 'o', 'r', 't'], p),
             (['k', 'e', 'y'], k), (['m', 'o', 'd', 'e', 'l'], m)], []) := by
  rw [parseObj.eq_def, encodeL]
  rw [skipWs_nws _ _ (by decide)]
  dsimp only
  rw [if_pos rfl]
  rw [memberL]
  rw [skipWs_ws _ _ (by decide), skipWs_ws _ _ (by decide),
    skipWs_ws _ _ (by decide), skipWs_nws _ _ (by decide)]
  dsimp only
  rw [if_neg (by decide)]
  rw [← memberL]
  refine parseMembers_mono 4 _ _ _ ?_ (parseMembers_enc u p k m)
  simp [memberL]

/-- Decoding the serialized form of a config recovers exactly its four
fields, in order. -/
theorem jsonDecode_encode (c : Config) :
    jsonDecode (encodeConfig c) =
      some [("url", c.url), ("port", c.port), ("key", c.key), ("model", c.model)] := by
  have e : encodeConfig c =
      String.mk (encodeL c.url.data c.port.data c.key.data c.model.data) := rfl
  rw [e, jsonDecode]
  rw [show (String.mk (encodeL c.url.data c.port.data c.key.data c.model.data)).data =
    encodeL c.url.data c.port.data c.key.data c.model.data from rfl]
  rw [parseObj_enc]
  dsimp only
  rw [if_pos (by rfl)]
  rfl

/-- Claim C8: saving a config record and loading it back is the identity
on records with printable-string fields — the serialized JSON decodes to
exactly the saved dictionary, and every field reads back unchanged. -/
theorem save_load_roundtrip (c : Config)
    (hu : printableStr c.url = true) (hp : printableStr c.port = true)
    (hk : printableStr c.key = true) (hm : printableStr c.model = true) :
    configOfDict (load_config (save_config c)) = c := by
  rw [save_config, load_config, jsonDecode_encode]
  cases c with
  | mk u p k m => simp [configOfDict, dGet, dLookup]

/-- Claim C8, witness: a concrete config exercising the `"` and `\`
escapes round-trips exactly. -/
theorem save_load_roundtrip_witness :
    printableStr ("sk-\"quoted\\slash") = true ∧
    configOfDict (load_config (save_config
        (Config.mk ("http://localhost:11434/v1") ("8080") ("sk-\"quoted\\slash") ("gpt-4")))) =
      Config.mk ("http://localhost:11434/v1") ("8080") ("sk-\"quoted\\slash") ("gpt-4") :=
  ⟨by decide,
   save_load_roundtrip
     (Config.mk ("http://localhost:11434/v1") ("8080") ("sk-\"quoted\\slash") ("gpt-4"))
     (by decide) (by decide) (by decide) (by decide)⟩

/-- Claim C1 (amended): the process exits with code 1 exactly when it is
invoked with no arguments; an unreadable or empty input file is reported
on the console but `process_file` returns normally, so those runs — like
every successful run — exit with code 0. -/
theorem main_exit_code (argv : List String) (cfg : Dict) (net : Net) (fileRead : ReadResult) :
    (mainRun argv cfg net fileRead).1 = if argv.length < 2 then 1 else 0 := by
  unfold mainRun
  split
  · simp_all
  · split
    · simp_all
    · split <;> simp_all

/-- Claim C1, counterexample to the claim as stated: a run on a
nonexistent input file (with a configured URL) reports the not-found
error yet exits with code 0, not 1. -/
theorem main_exit_counterexample :
    (mainRun (["chng", "missing.diff"]) ([("url", "http://x")]) (fun _ => Except.error ("boom"))
        ReadResult.notFound).1 ≠ 1 ∧
    (mainRun (["chng", "missing.diff"]) ([("url", "http://x")]) (fun _ => Except.error ("boom"))
        ReadResult.notFound).2.msgs = ["[red]Error: File 'missing.diff' not found[/red]"] := by
  exact ⟨by decide, by decide⟩

/-- Claim C2: an input whose text is empty after trimming is rejected
with the empty-input error before any completion call: the run prints
exactly the error, issues zero API calls and writes nothing. -/
theorem empty_diff_no_api_call (cfg : Dict) (net : Net) (raw filepath : String)
    (h : strip raw = "") :
    process_file cfg net (ReadResult.ok raw) filepath =
      { msgs := ["[red]Error: File is empty[/red]"], calls := [], writes := [] } := by
  simp [process_file, h]

/-- Claim C2, witness: a whitespace-only diff file. -/
theorem empty_diff_no_api_call_witness :
    strip ("   ") = "" ∧
    process_file [] (fun _ => Except.error ("unused")) (ReadResult.ok ("   ")) ("fix.diff") =
      { msgs := ["[red]Error: File is empty[/red]"], calls := [], writes := [] } :=
  ⟨by decide, empty_diff_no_api_call [] (fun _ => Except.error ("unused")) ("   ") ("fix.diff") (by decide)⟩

/-- Claim C9: whenever a client is constructed, an empty configured key
is replaced by the literal placeholder "dummy" and a non-empty key is
passed through unchanged. -/
theorem client_key_fallback (cfg : Dict) (c : Client) (h : get_client cfg = some c) :
    (dGet cfg ("key") ("") = "" → c.apiKey = "dummy") ∧
    (dGet cfg ("key") ("") ≠ "" → c.apiKey = dGet cfg ("key") ("")) := by
  unfold get_client at h
  cases hau : getApiUrl cfg with
  | none => rw [hau] at h; simp at h
  | some au =>
    rw [hau] at h
    simp only [Option.map_some', Option.some.injEq] at h
    subst h
    constructor <;> intro hk <;> simp [hk]

/-- Claim C9, witness: a config with a URL and no key yields a client
with the "dummy" key. -/
theorem client_key_fallback_witness :
    get_client ([("url", "http://x")]) = some (Client.mk ("http://x") ("dummy")) ∧
    (Client.mk ("http://x") ("dummy")).apiKey = "dummy" :=
  ⟨by decide,
   (client_key_fallback ([("url", "http://x")]) (Client.mk ("http://x") ("dummy")) (by decide)).1
     (by decide)⟩

/-- Claim C4: for a url containing `://` and a non-empty port whose
`:<port>` does not already occur in it, resolution rebuilds the url as
`scheme://host:port/path`: the scheme is the part before the first `://`,
the host is the first path segment of the remainder with any original
`:port` suffix dropped, and the path is the remainder after the first
segment (empty when there was none). -/
theorem get_api_url_port_injection (cfg : Dict) (u p scheme rest : String)
    (hu : rstripSlash (dGet cfg ("url") ("")) = u)
    (hp : dGet cfg ("port") ("") = p)
    (hne : u ≠ "")
    (hpne : p ≠ "")
    (hnoport : strContains u (":" ++ p) = false)
    (hsep : strContains u ("://") = true)
    (hsplit : splitFirst u ("://") = (scheme, rest)) :
    getApiUrl cfg =
      some (scheme ++ "://" ++ (splitOnStr ((splitOnStr rest ("/")).headD ("")) (":")).headD ("")
        ++ ":" ++ p ++
        (if strContains rest ("/") = true then
          "/" ++ String.intercalate ("/") ((splitOnStr rest ("/")).tail)
        else "")) := by
  unfold getApiUrl
  rw [hu, hp, if_neg hne, if_pos ⟨hpne, hnoport⟩, if_pos hsep, hsplit]

/-- Claim C4, witness: the spec's example,
`resolve("http://localhost:11434/v1", "8080") = "http://localhost:8080/v1"`. -/
theorem get_api_url_port_injection_witness :
    getApiUrl ([("url", "http://localhost:11434/v1"), ("port", "8080")]) =
      some ("http://localhost:8080/v1") := by
  have h := get_api_url_port_injection
    ([("url", "http://localhost:11434/v1"), ("port", "8080")])
    ("http://localhost:11434/v1") ("8080") ("http") ("localhost:11434/v1")
    (by decide) (by decide) (by decide) (by decide) (by decide) (by decide) (by decide)
  exact h.trans (by decide)

/-- Claim C5 (amended): resolution fails with "no endpoint configured"
exactly when the stored url is empty after stripping trailing slashes
(not: exactly when the stored url is empty); and any non-empty stripped
url is returned unchanged whenever the port is empty, or `:<port>`
already occurs in it, or it has no `://` separator. -/
theorem get_api_url_none_and_unchanged (cfg : Dict) :
    ((getApiUrl cfg = none) ↔ rstripSlash (dGet cfg ("url") ("")) = "") ∧
    (∀ u p : String, rstripSlash (dGet cfg ("url") ("")) = u → dGet cfg ("port") ("") = p →
      u ≠ "" →
      (p = "" ∨ strContains u (":" ++ p) = true ∨ strContains u ("://") = false) →
      getApiUrl cfg = some u) := by
  constructor
  · constructor
    · intro h
      by_cases h0 : rstripSlash (dGet cfg ("url") ("")) = ""
      · exact h0
      · exfalso
        unfold getApiUrl at h
        rw [if_neg h0] at h
        revert h
        split
        · split <;> simp
        · simp
    · intro h
      unfold getApiUrl
      rw [if_pos h]
  · intro u p hu hp hne hcase
    unfold getApiUrl
    rw [hu, hp, if_neg hne]
    rcases hcase with h1 | h1 | h1
    · rw [if_neg (by simp [h1])]
    · rw [if_neg (by simp [h1])]
    · by_cases hcond : p ≠ "" ∧ strContains u (":" ++ p) = false
      · rw [if_pos hcond, if_neg (by simp [h1])]
      · rw [if_neg hcond]

/-- Claim C5, witness: a url with a trailing slash and an empty port is
returned unchanged (trailing slash stripped). -/
theorem get_api_url_none_and_unchanged_witness :
    getApiUrl ([("url", "http://localhost:11434/v1/"), ("port", "")]) =
      some ("http://localhost:11434/v1") :=
  (get_api_url_none_and_unchanged ([("url", "http://localhost:11434/v1/"), ("port", "")])).2
    ("http://localhost:11434/v1") ("") (by decide) (by decide) (by decide) (Or.inl rfl)

/-- Claim C5, counterexample to the claim as stated: the stored url `"/"`
is non-empty, yet resolution fails, because the emptiness check runs
after trailing slashes are stripped. -/
theorem get_api_url_slash_counterexample :
    getApiUrl ([("url", "/"), ("port", "8080")]) = none ∧
    dGet ([("url", "/"), ("port", "8080")]) ("url") ("") ≠ "" := by
  exact ⟨by decide, by decide⟩

/-- Claim C3: `load_config` is total — a missing file and an unparseable
file both give the empty record rather than an error — and every field
absent from the loaded dict reads back as its default (empty string, and
`gpt-3.5-turbo` for the model), which is how the program reads the
config at every use site. -/
theorem load_config_defaults (fs : FileState) :
    load_config FileState.missing = [] ∧
    (∀ raw : String, jsonDecode raw = none → load_config (FileState.present raw) = []) ∧
    (dLookup (load_config fs) ("url") = none → (configOfDict (load_config fs)).url = "") ∧
    (dLookup (load_config fs) ("port") = none → (configOfDict (load_config fs)).port = "") ∧
    (dLookup (load_config fs) ("key") = none → (configOfDict (load_config fs)).key = "") ∧
    (dLookup (load_config fs) ("model") = none →
      (configOfDict (load_config fs)).model = "gpt-3.5-turbo") := by
  refine ⟨rfl, fun raw h => by simp [load_config, h], ?_, ?_, ?_, ?_⟩ <;>
    intro h <;> simp [configOfDict, dGet, h]

/-- Claim C3, witness: a parseable config file providing only `url` reads
back with the other three fields defaulted. -/
theorem load_config_defaults_witness :
    dLookup (load_config (FileState.present ("\x7b \"url\": \"http://x\" \x7d"))) ("model") = none ∧
    (configOfDict (load_config (FileState.present ("\x7b \"url\": \"http://x\" \x7d")))).model
      = "gpt-3.5-turbo" :=
  ⟨by decide,
   (load_config_defaults (FileState.present ("\x7b \"url\": \"http://x\" \x7d"))).2.2.2.2.2
     (by decide)⟩

/-- Claim C6: when the completion call raises, `generate_changelog`
returns no changelog and its console output carries the underlying error
message, and the run writes no output file at all. -/
theorem completion_error_no_output (cfg : Dict) (net : Net) (raw filepath e : String) (c : Client)
    (hne : strip raw ≠ "")
    (hc : get_client cfg = some c)
    (herr : net (buildPrompt (strip raw)) = Except.error e) :
    (generate_changelog cfg net (strip raw)).result = none ∧
    (generate_changelog cfg net (strip raw)).msgs = ["[red]Error: " ++ e ++ "[/red]"] ∧
    process_file cfg net (ReadResult.ok raw) filepath =
      { msgs := ["[blue]Processing " ++ filepath ++ "...[/blue]", "[red]Error: " ++ e ++ "[/red]"]
      , calls := [buildPrompt (strip raw)], writes := [] } := by
  refine ⟨?_, ?_, ?_⟩ <;> simp [process_file, generate_changelog, hne, hc, herr]

/-- Claim C6, witness: a transport-error stub on a non-empty diff. -/
theorem completion_error_no_output_witness :
    process_file ([("url", "http://x")]) (fun _ => Except.error ("connection refused"))
      (ReadResult.ok ("- bug\n+ fix")) ("fix.diff") =
      { msgs := ["[blue]Processing fix.diff...[/blue]", "[red]Error: connection refused[/red]"]
      , calls := [buildPrompt ("- bug\n+ fix")], writes := [] } := by
  have h := completion_error_no_output ([("url", "http://x")])
    (fun _ => Except.error ("connection refused")) ("- bug\n+ fix") ("fix.diff")
    ("connection refused") (Client.mk ("http://x") ("dummy")) (by decide) (by decide) rfl
  exact h.2.2.trans (by decide)

/-- Claim C7: on a non-empty input and a completion whose first choice
strips to a non-empty text, the run writes exactly
`# Changelog\n\n<text>` to `changelog-<input-stem>.md` in the input
file's directory. -/
theorem success_writes_changelog_file (cfg : Dict) (net : Net) (raw filepath T : String) (c : Client)
    (hne : strip raw ≠ "")
    (hc : get_client cfg = some c)
    (hok : net (buildPrompt (strip raw)) = Except.ok T)
    (hT : strip T ≠ "") :
    (process_file cfg net (ReadResult.ok raw) filepath).writes =
      [(parentDir filepath ++ "changelog-" ++ pathStem filepath ++ ".md",
        "# Changelog\n\n" ++ strip T)] := by
  simp [process_file, generate_changelog, outputPath, hne, hc, hok, hT]

/-- Claim C7, witness: the spec's end-to-end scenario — input `fix.diff`
with a stub returning `### Fixed\n- bug` yields `changelog-fix.md`
containing exactly `# Changelog\n\n### Fixed\n- bug`. -/
theorem success_writes_changelog_file_witness :
    (process_file ([("url", "http://localhost:11434/v1")])
        (fun _ => Except.ok ("### Fixed\n- bug"))
        (ReadResult.ok ("- bug\n+ fix")) ("fix.diff")).writes =
      [(("changelog-fix.md" : String), ("# Changelog\n\n### Fixed\n- bug" : String))] := by
  have h := success_writes_changelog_file ([("url", "http://localhost:11434/v1")])
    (fun _ => Except.ok ("### Fixed\n- bug")) ("- bug\n+ fix") ("fix.diff")
    ("### Fixed\n- bug") (Client.mk ("http://localhost:11434/v1") ("dummy"))
    (by decide) (by decide) rfl (by decide)
  exact h.trans (by decide)

/-- Claim C10: when the completion succeeds but its content strips to the
empty string, the run writes no file and reports nothing beyond the
processing notice — Python's `if changelog:` treats the empty string like
a failure, silently. -/
theorem blank_completion_silent (cfg : Dict) (net : Net) (raw filepath T : String) (c : Client)
    (hne : strip raw ≠ "")
    (hc : get_client cfg = some c)
    (hok : net (buildPrompt (strip raw)) = Except.ok T)
    (hT : strip T = "") :
    process_file cfg net (ReadResult.ok raw) filepath =
      { msgs := ["[blue]Processing " ++ filepath ++ "...[/blue]"]
      , calls := [buildPrompt (strip raw)], writes := [] } := by
  simp [process_file, generate_changelog, hne, hc, hok, hT]

/-- Claim C10, witness: a whitespace-only completion on a non-empty
diff file. -/
theorem blank_completion_silent_witness :
    process_file ([("url", "http://x")]) (fun _ => Except.ok ("   "))
      (ReadResult.ok ("- bug")) ("fix.diff") =
      { msgs := ["[blue]Processing fix.diff...[/blue]"]
      , calls := [buildPrompt ("- bug")], writes := [] } := by
  have h := blank_completion_silent ([("url", "http://x")]) (fun _ => Except.ok ("   "))
    ("- bug") ("fix.diff") ("   ") (Client.mk ("http://x") ("dummy"))
    (by decide) (by decide) rfl (by decide)
  exact h.trans (by decide)

end Chng
